import Mathlib

/-!
Shallow embedding of the conversational AI NPC mod of the PoorCraft
repository (src/mods/ai_npc/main.py): the NPC state store, the chat
dispatch queue, the loop body of the background worker, the lifecycle
handlers, and the provider selection policy, together with proofs of the
specification claims about them.

Modelling conventions:
* Python dicts keyed by integer ids become association lists with the
  helper operations dictGet, dictInsert and dictRemove below; a Python
  dict has unique keys, so removing every matching entry agrees with pop.
* The network call hidden behind provider.generate_response is an oracle
  parameter of type Responder; the worker code is embedded around it, and
  a failed call (timeout, transport error, malformed response, which all
  return None in the source) is the oracle returning none.
* random.choice in pick_personality is made explicit through an index
  argument; the floating point spawn position is irrelevant to every
  claim and is left out of the record.
* Calls to log, spawn_npc, despawn_npc and npc_say are recorded as
  EngineCall events, in the order the code emits them.
-/

namespace PoorCraft

/-- Association list lookup, mirroring Python dict indexing and dict get. -/
def dictGet {α : Type} : List (Nat × α) → Nat → Option α
  | [], _ => none
  | p :: rest, k => if p.1 = k then some p.2 else dictGet rest k

/-- Association list update, mirroring Python dict assignment: replace the
entry in place when the key exists, append otherwise. -/
def dictInsert {α : Type} : List (Nat × α) → Nat → α → List (Nat × α)
  | [], k, v => [(k, v)]
  | p :: rest, k, v => if p.1 = k then (k, v) :: rest else p :: dictInsert rest k v

/-- Association list removal, mirroring Python dict pop. -/
def dictRemove {α : Type} : List (Nat × α) → Nat → List (Nat × α)
  | [], _ => []
  | p :: rest, k => if p.1 = k then dictRemove rest k else p :: dictRemove rest k

/-- One conversation turn: the player utterance and the npc reply (a dict
with the keys player and npc in the source). -/
structure Entry where
  player : String
  npc : String
deriving DecidableEq

/-- The NPCState dataclass. The floating point spawn position is outside
the embedding; no claim mentions it. -/
structure NPCState where
  npc_id : Nat
  player_id : Nat
  player_name : String
  npc_name : String
  personality : String
  conversation_history : List Entry := []
deriving DecidableEq

/-- The ChatJob dataclass. -/
structure ChatJob where
  npc_id : Nat
  player_id : Nat
  message : String
deriving DecidableEq

/-- Calls the mod makes across the engine boundary, in emission order. -/
inductive EngineCall where
  | spawn (npc_id : Nat) (npc_name : String) (personality : String)
  | despawn (npc_id : Nat)
  | say (npc_id : Nat) (text : String)
  | logLine (text : String)
deriving DecidableEq

/-- The module level mutable state: ACTIVE_NPCS, PLAYER_NPCS,
NPC_ID_COUNTER and CHAT_QUEUE (head of the list = front of the queue). -/
structure ModState where
  active : List (Nat × NPCState)
  playerNpcs : List (Nat × List Nat)
  counter : Nat
  chatQueue : List ChatJob
deriving DecidableEq

/-- The state right after module load: empty maps, counter at 1, empty
queue. -/
def initState : ModState :=
  { active := [], playerNpcs := [], counter := 1, chatQueue := [] }

/-- The effective configuration snapshot: the CONFIG_CACHE fields read by
the embedded operations. -/
structure Config where
  enabled : Bool := true
  ai_provider : Option String := none
  active_provider : Option String := none
  auto_spawn_on_join : Bool := true
  npcs_per_player : Int := 1
  max_npcs : Int := 10
  conversation_history_limit : Int := 5
  response_timeout : Int := 30
  personalities : List String := []
deriving DecidableEq

/-- Provider availability map produced by detect_ai_providers: one boolean
per known backend. -/
structure ProviderAvailability where
  ollama : Bool
  gemini : Bool
  openrouter : Bool
  openai : Bool
deriving DecidableEq

/-- Python availability.get(name): the stored boolean for one of the four
known keys, falsy (None) for any other string. -/
def ProviderAvailability.get (av : ProviderAvailability) (name : String) : Bool :=
  if name = "ollama" then av.ollama
  else if name = "gemini" then av.gemini
  else if name = "openrouter" then av.openrouter
  else if name = "openai" then av.openai
  else false

/-- ASCII lower casing of one character, as Python str.lower() acts on the
ASCII range (provider names are ASCII). -/
def lowerChar (c : Char) : Char :=
  if 65 ≤ c.toNat ∧ c.toNat ≤ 90 then Char.ofNat (c.toNat + 32) else c

/-- Python str.lower() on the strings this module compares (ASCII). -/
def pyLower (s : String) : String :=
  String.mk (s.data.map lowerChar)

/-- The preferred provider name: Python evaluates
(config.get("ai_provider") or "ollama").lower(), where both a missing key
and the empty string are falsy and fall back to ollama. -/
def preferredOf (cfg : Config) : String :=
  pyLower (match cfg.ai_provider with
   | none => "ollama"
   | some s => if s = "" then "ollama" else s)

/-- select_provider: walk the order list and return the first candidate
whose availability entry is truthy. -/
def select_provider (cfg : Config) (availability : ProviderAvailability) : Option String :=
  let preferred := preferredOf cfg
  let order := [preferred, "ollama", "openai", "gemini", "openrouter"]
  order.find? (fun candidate => availability.get candidate)

/-- The fixed fallback order the source hard codes after the preferred
name. -/
def fallbackOrder : List String := ["ollama", "openai", "gemini", "openrouter"]

/-- The selection policy as the specification words it: the preferred
provider first, then the fixed fallback order over the remaining backends,
returning the first available one. -/
def select_provider_spec (cfg : Config) (availability : ProviderAvailability) : Option String :=
  let preferred := preferredOf cfg
  (preferred :: fallbackOrder.filter (fun c => c != preferred)).find?
    (fun candidate => availability.get candidate)

/-- create_ai_provider: resolve the active provider name to a backend,
none when the name is missing or unrecognized. The provider object is
represented by its normalized name. -/
def create_ai_provider (name : Option String) : Option String :=
  match name with
  | none => none
  | some n =>
    let n := pyLower n
    if n = "ollama" then some ("ollama")
    else if n = "gemini" then some ("gemini")
    else if n = "openrouter" then some ("openrouter")
    else if n = "openai" then some ("openai")
    else none

/-- Python list slice xs[s:] for an arbitrary integer start index. -/
def pySliceFrom {α : Type} (s : Int) (xs : List α) : List α :=
  let n : Int := xs.length
  let start : Int := if s < 0 then max 0 (n + s) else min s n
  xs.drop start.toNat

/-- trim_history: conversation_history = conversation_history[-limit:]. -/
def trim_history (limit : Int) (xs : List Entry) : List Entry :=
  pySliceFrom (-limit) xs

/-- What one successful worker turn does to a history: append the new turn,
then trim. -/
def appendAndTrim (limit : Int) (h : List Entry) (e : Entry) : List Entry :=
  trim_history limit (h ++ [e])

/-- The suffix consisting of the last n elements of a list. -/
def lastN {α : Type} (n : Nat) (xs : List α) : List α :=
  xs.drop (xs.length - n)

/-- generate_greeting: greeting text keyed by personality, with a generic
default. -/
def generate_greeting (personality : String) (player_name : String) : String :=
  if personality = "friendly" then "Hey " ++ player_name ++ "! Need a hand exploring?"
  else if personality = "grumpy" then player_name ++ ", try not to break anything, alright?"
  else if personality = "wise" then "Greetings, " ++ player_name ++ ". Wisdom follows those who seek it."
  else if personality = "mysterious" then "The winds whispered you\x27d arrive, " ++ player_name ++ "."
  else if personality = "cheerful" then "Hi " ++ player_name ++ "! Isn\x27t today block-tastic?"
  else if personality = "merchant" then "Psst, " ++ player_name ++ "! I\x27ve got the best imaginary trades around."
  else if personality = "guard" then "Stay sharp, " ++ player_name ++ ". Trouble could be anywhere."
  else "Hello there, " ++ player_name ++ "!"

/-- generate_npc_name: display name derived from the personality. -/
def generate_npc_name (personality : String) : String :=
  (if personality = "friendly" then "Buddy"
   else if personality = "grumpy" then "Curmudgeon"
   else if personality = "wise" then "Oracle"
   else if personality = "mysterious" then "Shade"
   else if personality = "cheerful" then "Spark"
   else if personality = "merchant" then "Barter"
   else if personality = "guard" then "Sentinel"
   else "Companion") ++ " NPC"

/-- pick_personality with random.choice made explicit by an index
argument: an empty configured list is falsy and falls back to the built-in
default list. -/
def pick_personality (personalities : List String) (pick : Nat) : String :=
  let ps := if personalities.isEmpty then
    ["friendly", "grumpy", "wise", "mysterious", "cheerful"] else personalities
  ps.getD (pick % ps.length) ""

/-- create_npc: reject when the global cap is reached; otherwise allocate
the next id, build the record, store it, spawn the entity, append the
greeting turn to the conversation history of the freshly stored record (the
source mutates the stored dataclass in place) and speak the greeting. -/
def create_npc (cfg : Config) (s : ModState) (player_id : Nat) (player_name : String)
    (pick : Nat) : Option Nat × ModState × List EngineCall :=
  if (s.active.length : Int) ≥ cfg.max_npcs then
    (none, s, [EngineCall.logLine ("[AI-NPC] Max NPC count reached, skipping spawn.")])
  else
    let npc_id := s.counter
    let personality := pick_personality cfg.personalities pick
    let npc_name := generate_npc_name personality
    let greeting := generate_greeting personality player_name
    let record : NPCState :=
      { npc_id := npc_id, player_id := player_id, player_name := player_name,
        npc_name := npc_name, personality := personality,
        conversation_history := [{ player := "<join>", npc := greeting }] }
    (some npc_id,
     { s with counter := s.counter + 1, active := dictInsert s.active npc_id record },
     [EngineCall.spawn npc_id npc_name personality, EngineCall.say npc_id greeting])

/-- The record that an accepting create_npc call stores: a name for the
value built inline by create_npc, used to state lemmas about it. -/
def newNpcRecord (cfg : Config) (s : ModState) (player_id : Nat) (player_name : String)
    (pick : Nat) : NPCState :=
  let personality := pick_personality cfg.personalities pick
  let greeting := generate_greeting personality player_name
  { npc_id := s.counter, player_id := player_id, player_name := player_name,
    npc_name := generate_npc_name personality, personality := personality,
    conversation_history := [{ player := "<join>", npc := greeting }] }

/-- The on_player_join handler: no-op unless auto spawn is enabled and the
player is below the clamped per-player count; otherwise create an NPC and
index it under its player. -/
def on_player_join (cfg : Config) (s : ModState) (player_id : Nat) (username : String)
    (pick : Nat) : ModState × List EngineCall :=
  if cfg.auto_spawn_on_join = false then (s, [])
  else
    let max_per_player : Int := max 1 cfg.npcs_per_player
    let existing := (dictGet s.playerNpcs player_id).getD []
    if (existing.length : Int) ≥ max_per_player then (s, [])
    else
      match create_npc cfg s player_id username pick with
      | (some npc_id, s1, out) =>
        let idx := dictInsert s1.playerNpcs player_id
          (((dictGet s1.playerNpcs player_id).getD []) ++ [npc_id])
        ({ s1 with playerNpcs := idx }, out)
      | (none, s1, out) => (s1, out)

/-- despawn_npc_for_player: pop the player index entry, drop every owned
NPC from the active map and issue a despawn call for each. -/
def despawn_npc_for_player (s : ModState) (player_id : Nat) : ModState × List EngineCall :=
  let npc_ids := (dictGet s.playerNpcs player_id).getD []
  let s1 := { s with playerNpcs := dictRemove s.playerNpcs player_id }
  ({ s1 with active := npc_ids.foldl (fun d i => dictRemove d i) s1.active },
   npc_ids.map EngineCall.despawn)

/-- handle_chat: drop with a log line when the NPC id is not tracked,
otherwise push exactly one ChatJob onto the tail of the FIFO queue. A
total function; nothing in it can raise to the caller. -/
def handle_chat (s : ModState) (npc_id : Nat) (player_id : Nat) (message : String) :
    ModState × List EngineCall :=
  if dictGet s.active npc_id = none then
    (s, [EngineCall.logLine ("[AI-NPC] NPC " ++ toString npc_id ++ " not active, ignoring chat message.")])
  else
    ({ s with chatQueue :=
        s.chatQueue ++ [{ npc_id := npc_id, player_id := player_id, message := message }] }, [])

/-- The network behaviour of provider.generate_response: given the
normalized provider name, the npc record and the player message, either a
reply text or failure. -/
def Responder : Type := String → NPCState → String → Option String

/-- The body of one worker loop iteration after a job has been dequeued:
revalidate the npc, resolve the provider, call it, and either record the
turn and speak the reply or speak a fixed fallback line. Python truthiness
sends an empty reply string to the fallback branch as well. -/
def processJob (cfg : Config) (respond : Responder) (active : List (Nat × NPCState))
    (job : ChatJob) : List (Nat × NPCState) × List EngineCall :=
  match dictGet active job.npc_id with
  | none => (active, [])
  | some npc_state =>
    match create_ai_provider cfg.active_provider with
    | none => (active, [EngineCall.say job.npc_id ("Sorry, I\x27m feeling quiet right now.")])
    | some provider =>
      match respond provider npc_state job.message with
      | some response =>
        if response = "" then
          (active, [EngineCall.say job.npc_id ("Hmm, my brain just froze. Let\x27s try again later.")])
        else
          let hist := appendAndTrim cfg.conversation_history_limit
            npc_state.conversation_history { player := job.message, npc := response }
          (dictInsert active job.npc_id { npc_state with conversation_history := hist },
           [EngineCall.say job.npc_id response])
      | none =>
        (active, [EngineCall.say job.npc_id ("Hmm, my brain just froze. Let\x27s try again later.")])

/-- The single consumer draining a list of jobs in FIFO order, one
processJob per job, never reordering and never retrying. -/
def workerRunJobs (cfg : Config) (respond : Responder) (active : List (Nat × NPCState)) :
    List ChatJob → List (Nat × NPCState) × List EngineCall
  | [] => (active, [])
  | job :: rest =>
    let r1 := processJob cfg respond active job
    let r2 := workerRunJobs cfg respond r1.1 rest
    (r2.1, r1.2 ++ r2.2)

/-- One iteration of the worker loop on the shared state: dequeue the
front job, if any, and process it. -/
def worker_step (cfg : Config) (respond : Responder) (s : ModState) :
    ModState × List EngineCall :=
  match s.chatQueue with
  | [] => (s, [])
  | job :: rest =>
    let r := processJob cfg respond s.active job
    ({ s with chatQueue := rest, active := r.1 }, r.2)

/-- shutdown: despawn every tracked NPC and clear both maps; the source
does not clear the queue itself. -/
def shutdown (s : ModState) : ModState × List EngineCall :=
  ({ s with active := [], playerNpcs := [] },
   s.active.map (fun p => EngineCall.despawn p.1))

/-- A sequence of handle_chat calls; each request is
(npc_id, player_id, message). -/
def enqueueAll (s : ModState) (reqs : List (Nat × Nat × String)) : ModState :=
  reqs.foldl (fun st r => (handle_chat st r.1 r.2.1 r.2.2).1) s

/-- States reachable from the initial module state in a given number of
operations: join and leave signals, chat enqueues, single worker
iterations and shutdown. -/
inductive ReachableN (cfg : Config) (respond : Responder) : Nat → ModState → Prop where
  | start : ReachableN cfg respond 0 initState
  | join (n : Nat) (s : ModState) (pid : Nat) (uname : String) (pick : Nat) :
      ReachableN cfg respond n s →
      ReachableN cfg respond (n + 1) (on_player_join cfg s pid uname pick).1
  | leave (n : Nat) (s : ModState) (pid : Nat) :
      ReachableN cfg respond n s →
      ReachableN cfg respond (n + 1) (despawn_npc_for_player s pid).1
  | chat (n : Nat) (s : ModState) (npcid : Nat) (pid : Nat) (msg : String) :
      ReachableN cfg respond n s →
      ReachableN cfg respond (n + 1) (handle_chat s npcid pid msg).1
  | work (n : Nat) (s : ModState) :
      ReachableN cfg respond n s →
      ReachableN cfg respond (n + 1) (worker_step cfg respond s).1
  | stop (n : Nat) (s : ModState) :
      ReachableN cfg respond n s →
      ReachableN cfg respond (n + 1) (shutdown s).1

/-- A concrete configuration used by the concrete scenarios below. -/
def cfg0 : Config :=
  { enabled := true, ai_provider := none, active_provider := some ("ollama"),
    auto_spawn_on_join := true, npcs_per_player := 1, max_npcs := 10,
    conversation_history_limit := 5, response_timeout := 30, personalities := [] }

/-- A responder whose provider call always fails. -/
def respond0 : Responder := fun _ _ _ => none

/-- One join of player 1 followed by k chat messages to the npc it
spawned. -/
def pumpState (cfg : Config) : Nat → ModState
  | 0 => (on_player_join cfg initState 1 ("Alice") 0).1
  | k + 1 => (handle_chat (pumpState cfg k) 1 1 ("hi")).1

/-- A concrete tracked NPC record used by concrete scenarios. -/
def npcW : NPCState :=
  { npc_id := 1, player_id := 1, player_name := "Alice", npc_name := "Buddy NPC",
    personality := "friendly", conversation_history := [] }

/-- A concrete state with one tracked NPC owned by player 1. -/
def sW : ModState :=
  { active := [(1, npcW)], playerNpcs := [(1, [1])], counter := 2, chatQueue := [] }

/-! ### Helper lemmas about the dict embedding -/

theorem dictGet_insert {α : Type} (d : List (Nat × α)) (k k' : Nat) (v : α) :
    dictGet (dictInsert d k v) k' = if k = k' then some v else dictGet d k' := by
  induction d with
  | nil =>
    by_cases h : k = k' <;> simp [dictInsert, dictGet, h]
  | cons p rest ih =>
    by_cases hp : p.1 = k
    · subst hp
      by_cases hk : p.1 = k' <;> simp [dictInsert, dictGet, hk]
    · by_cases hk : p.1 = k'
      · subst hk
        have hne : ¬ k = p.1 := fun he => hp he.symm
        simp [dictInsert, dictGet, hp, hne]
      · simp [dictInsert, dictGet, hp, hk, ih]

theorem dictGet_remove {α : Type} (d : List (Nat × α)) (k k' : Nat) :
    dictGet (dictRemove d k) k' = if k = k' then none else dictGet d k' := by
  induction d with
  | nil =>
    by_cases h : k = k' <;> simp [dictRemove, dictGet, h]
  | cons p rest ih =>
    by_cases hp : p.1 = k
    · subst hp
      by_cases hk : p.1 = k'
      · subst hk
        simp [dictRemove, dictGet, ih]
      · simp [dictRemove, dictGet, hk, ih]
    · by_cases hk : p.1 = k'
      · subst hk
        have hne : ¬ k = p.1 := fun he => hp he.symm
        simp [dictRemove, dictGet, hp, hne]
      · simp [dictRemove, dictGet, hp, hk, ih]

theorem dictGet_foldRemove_none {α : Type} (ids : List Nat) (d : List (Nat × α)) (k : Nat)
    (h : dictGet d k = none) :
    dictGet (ids.foldl (fun d i => dictRemove d i) d) k = none := by
  induction ids generalizing d with
  | nil => simpa using h
  | cons i rest ih =>
    simp only [List.foldl_cons]
    apply ih
    rw [dictGet_remove]
    by_cases hik : i = k <;> simp [hik, h]

theorem dictGet_foldRemove_mem {α : Type} (ids : List Nat) (d : List (Nat × α)) (k : Nat)
    (h : k ∈ ids) :
    dictGet (ids.foldl (fun d i => dictRemove d i) d) k = none := by
  induction ids generalizing d with
  | nil => simp at h
  | cons i rest ih =>
    simp only [List.foldl_cons]
    rcases List.mem_cons.mp h with h1 | h2
    · apply dictGet_foldRemove_none
      rw [dictGet_remove]
      simp [h1]
    · exact ih _ h2

theorem dictGet_foldRemove_some {α : Type} (ids : List Nat) (d : List (Nat × α)) (k : Nat)
    (v : α) (h : dictGet (ids.foldl (fun d i => dictRemove d i) d) k = some v) :
    dictGet d k = some v := by
  induction ids generalizing d with
  | nil => simpa using h
  | cons i rest ih =>
    simp only [List.foldl_cons] at h
    have h2 := ih _ h
    rw [dictGet_remove] at h2
    by_cases hik : i = k
    · simp [hik] at h2
    · simpa [hik] using h2

/-! ### Helper lemmas about the embedded operations -/

theorem handle_chat_active (s : ModState) (n p : Nat) (m : String) :
    (handle_chat s n p m).1.active = s.active := by
  unfold handle_chat
  split <;> rfl

theorem handle_chat_playerNpcs (s : ModState) (n p : Nat) (m : String) :
    (handle_chat s n p m).1.playerNpcs = s.playerNpcs := by
  unfold handle_chat
  split <;> rfl

theorem handle_chat_queue_live (s : ModState) (n p : Nat) (m : String)
    (h : (dictGet s.active n).isSome = true) :
    (handle_chat s n p m).1.chatQueue =
      s.chatQueue ++ [{ npc_id := n, player_id := p, message := m }] := by
  unfold handle_chat
  have h2 : ¬ dictGet s.active n = none := by
    intro he
    rw [he] at h
    simp at h
  simp [h2]

theorem handle_chat_dead (s : ModState) (n p : Nat) (m : String)
    (h : dictGet s.active n = none) :
    handle_chat s n p m =
      (s, [EngineCall.logLine ("[AI-NPC] NPC " ++ toString n ++ " not active, ignoring chat message.")]) := by
  unfold handle_chat
  simp [h]

theorem enqueueAll_active (s : ModState) (reqs : List (Nat × Nat × String)) :
    (enqueueAll s reqs).active = s.active := by
  induction reqs generalizing s with
  | nil => rfl
  | cons r rest ih =>
    unfold enqueueAll
    simp only [List.foldl_cons]
    rw [show ∀ t, List.foldl (fun st r => (handle_chat st r.1 r.2.1 r.2.2).1) t rest
        = enqueueAll t rest from fun t => rfl]
    rw [ih, handle_chat_active]

theorem enqueueAll_queue (s : ModState) (reqs : List (Nat × Nat × String))
    (h : ∀ r ∈ reqs, (dictGet s.active r.1).isSome = true) :
    (enqueueAll s reqs).chatQueue =
      s.chatQueue ++ reqs.map (fun r => { npc_id := r.1, player_id := r.2.1, message := r.2.2 }) := by
  induction reqs generalizing s with
  | nil => simp [enqueueAll]
  | cons r rest ih =>
    unfold enqueueAll
    simp only [List.foldl_cons]
    rw [show ∀ t, List.foldl (fun st r => (handle_chat st r.1 r.2.1 r.2.2).1) t rest
        = enqueueAll t rest from fun t => rfl]
    have hr : (dictGet s.active r.1).isSome = true := h r (List.mem_cons_self r rest)
    have hrest : ∀ q ∈ rest, (dictGet (handle_chat s r.1 r.2.1 r.2.2).1.active q.1).isSome = true := by
      intro q hq
      rw [handle_chat_active]
      exact h q (List.mem_cons_of_mem r hq)
    rw [ih _ hrest, handle_chat_queue_live _ _ _ _ hr]
    simp

theorem processJob_dead (cfg : Config) (g : Responder) (a : List (Nat × NPCState))
    (job : ChatJob) (h : dictGet a job.npc_id = none) :
    processJob cfg g a job = (a, []) := by
  unfold processJob
  simp [h]

theorem processJob_live_out (cfg : Config) (g : Responder) (a : List (Nat × NPCState))
    (job : ChatJob) (npc : NPCState) (provider : String)
    (hnpc : dictGet a job.npc_id = some npc)
    (hprov : create_ai_provider cfg.active_provider = some provider) :
    ∃ t, (processJob cfg g a job).2 = [EngineCall.say job.npc_id t] := by
  simp only [processJob, hnpc, hprov]
  cases hr : g provider npc job.message with
  | none => exact ⟨_, rfl⟩
  | some response =>
    by_cases he : response = ""
    · simp [he]
    · simp only [he, if_neg he]
      exact ⟨_, rfl⟩

theorem processJob_preserves_live (cfg : Config) (g : Responder) (a : List (Nat × NPCState))
    (job : ChatJob) (k : Nat) (h : (dictGet a k).isSome = true) :
    (dictGet (processJob cfg g a job).1 k).isSome = true := by
  cases hn : dictGet a job.npc_id with
  | none => simpa [processJob, hn] using h
  | some npc =>
    cases hp : create_ai_provider cfg.active_provider with
    | none => simpa [processJob, hn, hp] using h
    | some provider =>
      cases hr : g provider npc job.message with
      | none => simpa [processJob, hn, hp, hr] using h
      | some response =>
        by_cases he : response = ""
        · simpa [processJob, hn, hp, hr, he] using h
        · simp only [processJob, hn, hp, hr, if_neg he]
          rw [dictGet_insert]
          by_cases hk : job.npc_id = k <;> simp [hk, h]

theorem create_npc_queue (cfg : Config) (s : ModState) (pid : Nat) (pname : String)
    (pick : Nat) : (create_npc cfg s pid pname pick).2.1.chatQueue = s.chatQueue := by
  unfold create_npc
  split <;> rfl

theorem on_player_join_state (cfg : Config) (s : ModState) (pid : Nat) (uname : String)
    (pick : Nat) :
    (on_player_join cfg s pid uname pick).1 = s ∨
    ((on_player_join cfg s pid uname pick).1.active = (create_npc cfg s pid uname pick).2.1.active ∧
     (on_player_join cfg s pid uname pick).1.chatQueue = (create_npc cfg s pid uname pick).2.1.chatQueue) := by
  unfold on_player_join
  by_cases h1 : cfg.auto_spawn_on_join = false
  · simp [h1]
  · by_cases h2 : (((dictGet s.playerNpcs pid).getD []).length : Int) ≥ max 1 cfg.npcs_per_player
    · simp [h1, h2]
    · simp only [h1, h2, if_false, ite_false]
      rcases hc : create_npc cfg s pid uname pick with ⟨o, s1, out⟩
      cases o <;> simp

theorem on_player_join_queue (cfg : Config) (s : ModState) (pid : Nat) (uname : String)
    (pick : Nat) : (on_player_join cfg s pid uname pick).1.chatQueue = s.chatQueue := by
  rcases on_player_join_state cfg s pid uname pick with h | ⟨_, h⟩
  · rw [h]
  · rw [h, create_npc_queue]

theorem despawn_queue (s : ModState) (pid : Nat) :
    (despawn_npc_for_player s pid).1.chatQueue = s.chatQueue := rfl

theorem shutdown_queue (s : ModState) : (shutdown s).1.chatQueue = s.chatQueue := rfl

theorem worker_step_queue (cfg : Config) (g : Responder) (s : ModState) :
    (worker_step cfg g s).1.chatQueue.length ≤ s.chatQueue.length := by
  cases h : s.chatQueue with
  | nil => simp [worker_step, h]
  | cons job rest => simp [worker_step, h]

/-! ### Helper lemmas about history trimming -/

theorem trim_eq_lastN (limit : Int) (xs : List Entry) (h : 1 ≤ limit) :
    trim_history limit xs = lastN limit.toNat xs := by
  simp only [trim_history, pySliceFrom, lastN]
  rw [if_pos (by omega : -limit < 0)]
  congr 1
  omega

theorem lastN_length_le {α : Type} (n : Nat) (xs : List α) : (lastN n xs).length ≤ n := by
  simp [lastN]
  omega

theorem lastN_of_le {α : Type} (n : Nat) (xs : List α) (h : xs.length ≤ n) :
    lastN n xs = xs := by
  unfold lastN
  have h0 : xs.length - n = 0 := by omega
  rw [h0, List.drop_zero]

theorem lastN_append {α : Type} (n : Nat) (xs ys : List α) :
    lastN n (lastN n xs ++ ys) = lastN n (xs ++ ys) := by
  unfold lastN
  simp only [List.length_append, List.length_drop]
  rw [List.drop_append_eq_append_drop, List.drop_append_eq_append_drop, List.drop_drop]
  simp only [List.length_drop]
  congr 1
  · congr 1
    omega
  · congr 1
    omega

theorem foldl_appendAndTrim (limit : Int) (h0 : List Entry) (es : List Entry)
    (hlim : 1 ≤ limit) (hlen : h0.length ≤ limit.toNat) :
    List.foldl (appendAndTrim limit) h0 es = lastN limit.toNat (h0 ++ es) := by
  induction es generalizing h0 with
  | nil =>
    simp only [List.foldl_nil, List.append_nil]
    exact (lastN_of_le _ _ hlen).symm
  | cons e rest ih =>
    simp only [List.foldl_cons]
    have h1 : appendAndTrim limit h0 e = lastN limit.toNat (h0 ++ [e]) :=
      trim_eq_lastN _ _ hlim
    rw [ih (appendAndTrim limit h0 e) (by rw [h1]; exact lastN_length_le _ _), h1,
        lastN_append]
    congr 1
    simp

/-! ### Helper lemmas about NPC creation -/

theorem create_npc_reject (cfg : Config) (s : ModState) (pid : Nat) (pname : String)
    (pick : Nat) (h : (s.active.length : Int) ≥ cfg.max_npcs) :
    create_npc cfg s pid pname pick =
      (none, s, [EngineCall.logLine ("[AI-NPC] Max NPC count reached, skipping spawn.")]) := by
  unfold create_npc
  rw [if_pos h]

theorem create_npc_accept (cfg : Config) (s : ModState) (pid : Nat) (pname : String)
    (pick : Nat) (h : ¬ (s.active.length : Int) ≥ cfg.max_npcs) :
    create_npc cfg s pid pname pick =
      (some s.counter,
       { s with counter := s.counter + 1, active := dictInsert s.active s.counter (newNpcRecord cfg s pid pname pick) },
       [EngineCall.spawn s.counter (generate_npc_name (pick_personality cfg.personalities pick))
          (pick_personality cfg.personalities pick),
        EngineCall.say s.counter
          (generate_greeting (pick_personality cfg.personalities pick) pname)]) := by
  unfold create_npc newNpcRecord
  rw [if_neg h]

theorem create_npc_hist (cfg : Config) (s : ModState) (pid : Nat) (pname : String)
    (pick : Nat) (k : Nat) (r : NPCState)
    (h : dictGet (create_npc cfg s pid pname pick).2.1.active k = some r) :
    dictGet s.active k = some r ∨
    r.conversation_history =
      [{ player := "<join>",
         npc := generate_greeting (pick_personality cfg.personalities pick) pname }] := by
  by_cases hc : (s.active.length : Int) ≥ cfg.max_npcs
  · rw [create_npc_reject _ _ _ _ _ hc] at h
    exact Or.inl h
  · rw [create_npc_accept _ _ _ _ _ hc] at h
    dsimp only at h
    rw [dictGet_insert] at h
    by_cases hk : s.counter = k
    · right
      rw [if_pos hk] at h
      have hr := Option.some.inj h
      rw [← hr]
      rfl
    · left
      rw [if_neg hk] at h
      exact h

/-! ### Helper lemmas about the worker draining jobs -/

theorem workerRunJobs_forall2 (cfg : Config) (g : Responder) (a : List (Nat × NPCState))
    (jobs : List ChatJob) (provider : String)
    (hprov : create_ai_provider cfg.active_provider = some provider)
    (hlive : ∀ j ∈ jobs, (dictGet a j.npc_id).isSome = true) :
    List.Forall₂ (fun (job : ChatJob) (out : EngineCall) => ∃ t, out = EngineCall.say job.npc_id t)
      jobs (workerRunJobs cfg g a jobs).2 := by
  induction jobs generalizing a with
  | nil => exact List.Forall₂.nil
  | cons job rest ih =>
    obtain ⟨npc, hnpc⟩ := Option.isSome_iff_exists.mp (hlive job (List.mem_cons_self job rest))
    obtain ⟨t, ht⟩ := processJob_live_out cfg g a job npc provider hnpc hprov
    simp only [workerRunJobs]
    rw [ht]
    exact List.Forall₂.cons ⟨t, rfl⟩
      (ih _ (fun j hj => processJob_preserves_live _ _ _ _ _ (hlive j (List.mem_cons_of_mem _ hj))))

theorem workerRunJobs_det (cfg : Config) (a : List (Nat × NPCState)) (jobs : List ChatJob)
    (provider : String) (f : String → String)
    (hprov : create_ai_provider cfg.active_provider = some provider)
    (hlive : ∀ j ∈ jobs, (dictGet a j.npc_id).isSome = true)
    (hne : ∀ m, ¬ f m = "") :
    (workerRunJobs cfg (fun _ _ m => some (f m)) a jobs).2 =
      jobs.map (fun j => EngineCall.say j.npc_id (f j.message)) := by
  induction jobs generalizing a with
  | nil => rfl
  | cons job rest ih =>
    obtain ⟨npc, hnpc⟩ := Option.isSome_iff_exists.mp (hlive job (List.mem_cons_self job rest))
    simp only [workerRunJobs]
    have h1 : (processJob cfg (fun _ _ m => some (f m)) a job).2 =
        [EngineCall.say job.npc_id (f job.message)] := by
      simp only [processJob, hnpc, hprov, if_neg (hne job.message)]
    rw [h1, ih _ (fun j hj => processJob_preserves_live _ _ _ _ _ (hlive j (List.mem_cons_of_mem _ hj)))]
    rfl

/-! ### Helper lemmas for reachability of states -/

theorem pump_live (k : Nat) : (dictGet (pumpState cfg0 k).active 1).isSome = true := by
  induction k with
  | zero => decide
  | succ k ih =>
    show (dictGet (handle_chat (pumpState cfg0 k) 1 1 ("hi")).1.active 1).isSome = true
    rw [handle_chat_active]
    exact ih

theorem pump_len (k : Nat) : (pumpState cfg0 k).chatQueue.length = k := by
  induction k with
  | zero => decide
  | succ k ih =>
    show (handle_chat (pumpState cfg0 k) 1 1 ("hi")).1.chatQueue.length = k + 1
    rw [handle_chat_queue_live _ _ _ _ (pump_live k)]
    simp [ih]

theorem pump_reach (k : Nat) : ReachableN cfg0 respond0 (k + 1) (pumpState cfg0 k) := by
  induction k with
  | zero => exact ReachableN.join 0 initState 1 ("Alice") 0 ReachableN.start
  | succ k ih => exact ReachableN.chat (k + 1) _ 1 1 ("hi") ih

/-! ### Helper lemmas about provider selection -/

theorem av_get_ollama (av : ProviderAvailability) : av.get ("ollama") = av.ollama := rfl

theorem av_get_gemini (av : ProviderAvailability) : av.get ("gemini") = av.gemini := rfl

theorem av_get_openrouter (av : ProviderAvailability) : av.get ("openrouter") = av.openrouter := rfl

theorem av_get_openai (av : ProviderAvailability) : av.get ("openai") = av.openai := rfl

theorem get_false_of_all (av : ProviderAvailability) (h1 : av.ollama = false)
    (h2 : av.gemini = false) (h3 : av.openrouter = false) (h4 : av.openai = false)
    (s : String) : av.get s = false := by
  unfold ProviderAvailability.get
  split_ifs <;> simp [h1, h2, h3, h4]

theorem find?_filter_stable (av : ProviderAvailability) (pref : String)
    (hp : av.get pref = false) (l : List String) :
    (l.filter (fun c => c != pref)).find? (fun c => av.get c) =
      l.find? (fun c => av.get c) := by
  induction l with
  | nil => rfl
  | cons c rest ih =>
    by_cases hc : c = pref
    · subst hc
      have hfc : List.filter (fun x => x != c) (c :: rest) = List.filter (fun x => x != c) rest := by
        simp [List.filter_cons]
      rw [hfc, ih]
      exact (List.find?_cons_of_neg _ (by simp [hp])).symm
    · have hfc : List.filter (fun x => x != pref) (c :: rest) =
          c :: List.filter (fun x => x != pref) rest := by
        simp [List.filter_cons, hc]
      rw [hfc]
      by_cases hg : av.get c = true
      · rw [List.find?_cons_of_pos _ (by simpa using hg)]
        exact (List.find?_cons_of_pos _ (by simpa using hg)).symm
      · have hg' : ¬ ((fun x => av.get x) c = true) := by simpa using hg
        rw [List.find?_cons_of_neg _ hg', ih]
        exact (List.find?_cons_of_neg _ hg').symm

/-! ### The claims -/

/-- C3: select_provider returns the first available provider in the
priority order [preferred, then the fixed fallback order over the
remaining backends]; it returns none exactly when no provider in that
order is available; and with preferred gemini and only ollama available it
selects ollama. -/
theorem C3_selection_policy (cfg : Config) (av : ProviderAvailability) :
    select_provider cfg av = select_provider_spec cfg av ∧
    (select_provider cfg av = none ↔
      (av.get (preferredOf cfg) = false ∧ av.ollama = false ∧ av.openai = false ∧
       av.gemini = false ∧ av.openrouter = false)) ∧
    select_provider { cfg0 with ai_provider := some ("gemini") }
      { ollama := true, gemini := false, openrouter := false, openai := false } =
      some ("ollama") := by
  refine ⟨?_, ?_, by decide⟩
  · simp only [select_provider, select_provider_spec, fallbackOrder]
    by_cases hp : av.get (preferredOf cfg) = true
    · rw [List.find?_cons_of_pos _ (by simpa using hp)]
      exact (List.find?_cons_of_pos _ (by simpa using hp)).symm
    · have hp' : ¬ ((fun c => av.get c) (preferredOf cfg) = true) := by simpa using hp
      rw [List.find?_cons_of_neg _ hp']
      rw [show List.find? (fun candidate => av.get candidate)
            (preferredOf cfg :: List.filter (fun c => c != preferredOf cfg)
              ["ollama", "openai", "gemini", "openrouter"]) =
          List.find? (fun candidate => av.get candidate)
            (List.filter (fun c => c != preferredOf cfg)
              ["ollama", "openai", "gemini", "openrouter"]) from
        List.find?_cons_of_neg _ hp']
      exact (find?_filter_stable av _ (by simpa using hp) _).symm
  · constructor
    · intro h
      simp only [select_provider] at h
      rw [List.find?_eq_none] at h
      refine ⟨?_, ?_, ?_, ?_, ?_⟩
      · simpa using h (preferredOf cfg) (by simp)
      · have := h ("ollama") (by simp)
        rw [av_get_ollama] at this
        simpa using this
      · have := h ("openai") (by simp)
        rw [av_get_openai] at this
        simpa using this
      · have := h ("gemini") (by simp)
        rw [av_get_gemini] at this
        simpa using this
      · have := h ("openrouter") (by simp)
        rw [av_get_openrouter] at this
        simpa using this
    · rintro ⟨h0, h1, h2, h3, h4⟩
      simp only [select_provider]
      rw [List.find?_eq_none]
      intro x hx
      simp only [List.mem_cons, List.not_mem_nil, or_false] at hx
      rcases hx with hx | hx | hx | hx | hx <;> subst hx
      · simp [h0]
      · rw [av_get_ollama]
        simp [h1]
      · rw [av_get_openai]
        simp [h2]
      · rw [av_get_gemini]
        simp [h3]
      · rw [av_get_openrouter]
        simp [h4]

/-- C10: select_provider is total over arbitrary configured preferred
names (case folded, unrecognized, or absent defaulting to ollama): it
returns an available provider whenever one of the four known providers is
available, and none exactly when all four are unavailable. -/
theorem C10_selection_total (cfg : Config) (av : ProviderAvailability) :
    (∀ p, select_provider cfg av = some p → av.get p = true) ∧
    (select_provider cfg av = none ↔
      (av.ollama = false ∧ av.gemini = false ∧ av.openrouter = false ∧ av.openai = false)) := by
  constructor
  · intro p hp
    simp only [select_provider] at hp
    exact List.find?_some hp
  · constructor
    · intro h
      simp only [select_provider] at h
      rw [List.find?_eq_none] at h
      refine ⟨?_, ?_, ?_, ?_⟩
      · have := h ("ollama") (by simp)
        rw [av_get_ollama] at this
        simpa using this
      · have := h ("gemini") (by simp)
        rw [av_get_gemini] at this
        simpa using this
      · have := h ("openrouter") (by simp)
        rw [av_get_openrouter] at this
        simpa using this
      · have := h ("openai") (by simp)
        rw [av_get_openai] at this
        simpa using this
    · rintro ⟨h1, h2, h3, h4⟩
      simp only [select_provider]
      rw [List.find?_eq_none]
      intro x hx
      simp [get_false_of_all av h1 h2 h3 h4 x]

/-- Witness for C10 at a concrete input: with only ollama available the
selected provider is available. -/
theorem C10_witness :
    ProviderAvailability.get
      { ollama := true, gemini := false, openrouter := false, openai := false } ("ollama") = true :=
  (C10_selection_total cfg0
    { ollama := true, gemini := false, openrouter := false, openai := false }).1
    ("ollama") (by decide)

/-- C2 (amended to positive limits): for every configured history limit of
at least 1, any number of worker turns applied to a history no longer than
the limit keeps its length at most the limit and retains exactly the most
recent entries, namely the last limit entries of the initial history
followed by the processed turns. -/
theorem C2_history_bound (limit : Int) (h0 : List Entry) (es : List Entry)
    (hlim : 1 ≤ limit) (hlen : h0.length ≤ limit.toNat) :
    (List.foldl (appendAndTrim limit) h0 es).length ≤ limit.toNat ∧
    List.foldl (appendAndTrim limit) h0 es = lastN limit.toNat (h0 ++ es) := by
  have hchar := foldl_appendAndTrim limit h0 es hlim hlen
  refine ⟨?_, hchar⟩
  rw [hchar]
  exact lastN_length_le _ _

/-- C2 fails as stated at configured limit 0: the Python slice [-0:] keeps
the whole history, so a single processed turn leaves the history at length
1, exceeding the limit 0. -/
theorem C2_counterexample :
    ¬ ((List.foldl (appendAndTrim 0) ([] : List Entry)
      [{ player := "A", npc := "ra" }]).length ≤ (0 : Int).toNat) := by
  decide

/-- Witness for C2 at limit 2 with turns A, B, C from an empty history:
the bound holds and exactly the entries for B and C remain. -/
theorem C2_witness :
    ((List.foldl (appendAndTrim 2) ([] : List Entry)
      [{ player := "A", npc := "ra" }, { player := "B", npc := "rb" }, { player := "C", npc := "rc" }]).length ≤ (2 : Int).toNat ∧
     List.foldl (appendAndTrim 2) ([] : List Entry)
      [{ player := "A", npc := "ra" }, { player := "B", npc := "rb" }, { player := "C", npc := "rc" }] =
      lastN (2 : Int).toNat (([] : List Entry) ++
        [{ player := "A", npc := "ra" }, { player := "B", npc := "rb" }, { player := "C", npc := "rc" }])) ∧
    List.foldl (appendAndTrim 2) ([] : List Entry)
      [{ player := "A", npc := "ra" }, { player := "B", npc := "rb" }, { player := "C", npc := "rc" }] =
      [{ player := "B", npc := "rb" }, { player := "C", npc := "rc" }] :=
  ⟨C2_history_bound 2 [] _ (by decide) (by decide), by decide⟩

/-- C4: handle_chat is a total function of the state (nothing in it can
raise to the caller): when the NPC id is untracked it logs and drops,
leaving the state unchanged, which in particular covers every id just
removed by despawn_npc_for_player; when tracked it appends exactly one
ChatJob to the queue and returns; and a job whose NPC is gone is never
processed by the worker. -/
theorem C4_enqueue_safety (cfg : Config) (g : Responder) (s : ModState)
    (npcid pid p : Nat) (msg : String) :
    (dictGet s.active npcid = none →
      handle_chat s npcid pid msg =
        (s, [EngineCall.logLine ("[AI-NPC] NPC " ++ toString npcid ++ " not active, ignoring chat message.")])) ∧
    ((dictGet s.active npcid).isSome = true →
      handle_chat s npcid pid msg =
        ({ s with chatQueue := s.chatQueue ++ [{ npc_id := npcid, player_id := pid, message := msg }] }, [])) ∧
    (npcid ∈ (dictGet s.playerNpcs p).getD [] →
      (handle_chat (despawn_npc_for_player s p).1 npcid pid msg).1 = (despawn_npc_for_player s p).1) ∧
    (∀ a job, dictGet a job.npc_id = none → processJob cfg g a job = (a, [])) := by
  refine ⟨handle_chat_dead s npcid pid msg, ?_, ?_, fun a job h => processJob_dead cfg g a job h⟩
  · intro h
    have hne : ¬ dictGet s.active npcid = none := by
      intro he
      rw [he] at h
      simp at h
    unfold handle_chat
    rw [if_neg hne]
  · intro hmem
    have hnone : dictGet (despawn_npc_for_player s p).1.active npcid = none := by
      unfold despawn_npc_for_player
      dsimp only
      exact dictGet_foldRemove_mem _ _ _ hmem
    rw [handle_chat_dead _ _ _ _ hnone]

/-- Witness for C4: a chat for the NPC just removed with its player is
dropped, leaving the post-removal state unchanged. -/
theorem C4_witness :
    (handle_chat (despawn_npc_for_player sW 1).1 1 1 ("hi")).1 = (despawn_npc_for_player sW 1).1 :=
  (C4_enqueue_safety cfg0 respond0 sW 1 1 1 ("hi")).2.2.1 (by decide)

/-- C5: when the provider call fails and yields no reply, the worker emits
the fixed failure fallback line, leaves the whole NPC map, so every
conversation history, untouched, and draining that single job completes it
with no retry. -/
theorem C5_failure_fallback (cfg : Config) (g : Responder) (a : List (Nat × NPCState))
    (job : ChatJob) (npc : NPCState) (provider : String)
    (hnpc : dictGet a job.npc_id = some npc)
    (hprov : create_ai_provider cfg.active_provider = some provider)
    (hfail : g provider npc job.message = none) :
    processJob cfg g a job =
      (a, [EngineCall.say job.npc_id ("Hmm, my brain just froze. Let\x27s try again later.")]) ∧
    workerRunJobs cfg g a [job] =
      (a, [EngineCall.say job.npc_id ("Hmm, my brain just froze. Let\x27s try again later.")]) := by
  have h1 : processJob cfg g a job =
      (a, [EngineCall.say job.npc_id ("Hmm, my brain just froze. Let\x27s try again later.")]) := by
    simp only [processJob, hnpc, hprov, hfail]
  refine ⟨h1, ?_⟩
  simp [workerRunJobs, h1]

/-- Witness for C5 at a concrete state with a failing provider call. -/
theorem C5_witness :
    processJob cfg0 respond0 sW.active { npc_id := 1, player_id := 1, message := "hi" } =
      (sW.active, [EngineCall.say 1 ("Hmm, my brain just froze. Let\x27s try again later.")]) :=
  (C5_failure_fallback cfg0 respond0 sW.active { npc_id := 1, player_id := 1, message := "hi" }
    npcW ("ollama") (by decide) (by decide) rfl).1

/-- C6 fails as stated: create_npc itself appends the greeting turn to the
conversation history of the record it stores, outside the worker, so the
creation operation does not leave every stored conversation history at its
dataclass default (empty) or pre-operation value; at the concrete input
below the new record is stored with the greeting already in its history. -/
theorem C6_counterexample :
    ¬ (∀ (k : Nat) (r : NPCState),
        dictGet (create_npc cfg0 initState 1 ("Alice") 0).2.1.active k = some r →
        (∃ r0, dictGet initState.active k = some r0 ∧
          r.conversation_history = r0.conversation_history) ∨
        r.conversation_history = []) := by
  intro hcl
  have h := hcl 1 (newNpcRecord cfg0 initState 1 ("Alice") 0) (by decide)
  rcases h with ⟨r0, hr0, _⟩ | h2
  · rw [show dictGet initState.active 1 = (none : Option NPCState) from rfl] at hr0
    exact Option.noConfusion hr0
  · revert h2
    decide

/-- C6 (amended): besides the worker job step, the only other mutation of
a conversation history is create_npc seeding the new record with exactly
the single greeting turn; creation and join handling leave every other
stored record untouched, and enqueue, leave handling and shutdown leave
every conversation history unchanged. -/
theorem C6_single_writer (cfg : Config) (s : ModState) (npcid pid p : Nat)
    (uname msg : String) (pick : Nat) :
    (handle_chat s npcid pid msg).1.active = s.active ∧
    (∀ k r, dictGet (despawn_npc_for_player s p).1.active k = some r →
      dictGet s.active k = some r) ∧
    (shutdown s).1.active = [] ∧
    (∀ k r, dictGet (create_npc cfg s pid uname pick).2.1.active k = some r →
      dictGet s.active k = some r ∨
      r.conversation_history =
        [{ player := "<join>", npc := generate_greeting (pick_personality cfg.personalities pick) uname }]) ∧
    (∀ k r, dictGet (on_player_join cfg s pid uname pick).1.active k = some r →
      dictGet s.active k = some r ∨
      r.conversation_history =
        [{ player := "<join>", npc := generate_greeting (pick_personality cfg.personalities pick) uname }]) := by
  refine ⟨handle_chat_active s npcid pid msg, ?_, rfl,
    fun k r h => create_npc_hist cfg s pid uname pick k r h, ?_⟩
  · intro k r h
    unfold despawn_npc_for_player at h
    dsimp only at h
    exact dictGet_foldRemove_some _ _ _ _ h
  · intro k r h
    rcases on_player_join_state cfg s pid uname pick with he | ⟨ha, _⟩
    · rw [he] at h
      exact Or.inl h
    · rw [ha] at h
      exact create_npc_hist cfg s pid uname pick k r h

/-- Witness for C6: removal for a player owning no NPCs leaves the tracked
record, history included, in place. -/
theorem C6_witness :
    dictGet sW.active 1 = some npcW :=
  (C6_single_writer cfg0 sW 1 1 2 ("A") ("m") 0).2.1 1 npcW (by decide)

/-- C7: create_npc returns none, logs and changes nothing exactly when the
tracked population has reached the configured cap, and otherwise allocates
the next id and tracks one new NPC; four creations with cap 3 from the
empty store yield three tracked NPCs and one rejection. -/
theorem C7_population_cap (cfg : Config) (s : ModState) (pid : Nat) (pname : String)
    (pick : Nat) :
    ((s.active.length : Int) ≥ cfg.max_npcs →
      create_npc cfg s pid pname pick =
        (none, s, [EngineCall.logLine ("[AI-NPC] Max NPC count reached, skipping spawn.")])) ∧
    (¬ (s.active.length : Int) ≥ cfg.max_npcs →
      (create_npc cfg s pid pname pick).1 = some s.counter ∧
      (create_npc cfg s pid pname pick).2.1.active =
        dictInsert s.active s.counter (newNpcRecord cfg s pid pname pick) ∧
      (create_npc cfg s pid pname pick).2.1.counter = s.counter + 1) ∧
    (let cfg3 : Config := { cfg0 with max_npcs := 3 }
     let r1 := create_npc cfg3 initState 1 ("P1") 0
     let r2 := create_npc cfg3 r1.2.1 2 ("P2") 0
     let r3 := create_npc cfg3 r2.2.1 3 ("P3") 0
     let r4 := create_npc cfg3 r3.2.1 4 ("P4") 0
     r1.1.isSome = true ∧ r2.1.isSome = true ∧ r3.1.isSome = true ∧ r4.1 = none ∧
     r4.2.1.active.length = 3) := by
  refine ⟨fun h => create_npc_reject cfg s pid pname pick h, fun h => ?_, by decide⟩
  rw [create_npc_accept cfg s pid pname pick h]
  exact ⟨rfl, rfl, rfl⟩

/-- Witness for C7: with cap 0 even the first creation is rejected and the
state is unchanged. -/
theorem C7_witness :
    create_npc { cfg0 with max_npcs := 0 } initState 1 ("A") 0 =
      (none, initState, [EngineCall.logLine ("[AI-NPC] Max NPC count reached, skipping spawn.")]) :=
  (C7_population_cap { cfg0 with max_npcs := 0 } initState 1 ("A") 0).1 (by decide)

/-- C8 fails as stated at configured per-player count 0: the handler
clamps the cap with max(1, n), so a join for a player owning zero NPCs,
which is already at least the configured 0, still creates an NPC and
changes the store. -/
theorem C8_counterexample :
    ((((dictGet initState.playerNpcs 1).getD []).length : Int) ≥
      ({ cfg0 with npcs_per_player := 0 } : Config).npcs_per_player) ∧
    ¬ (on_player_join { cfg0 with npcs_per_player := 0 } initState 1 ("Alice") 0).1 = initState := by
  decide

/-- C8 (amended with the clamp the handler applies): a join signal for a
player who already owns at least max(1, configured per-player count) NPCs
is ignored as a complete no-op: no NPC is created and the store is
unchanged. -/
theorem C8_per_player_cap (cfg : Config) (s : ModState) (pid : Nat) (uname : String)
    (pick : Nat)
    (h : (((dictGet s.playerNpcs pid).getD []).length : Int) ≥ max 1 cfg.npcs_per_player) :
    on_player_join cfg s pid uname pick = (s, []) := by
  unfold on_player_join
  by_cases h1 : cfg.auto_spawn_on_join = false
  · simp [h1]
  · simp [h1, h]

/-- Witness for C8: a join for the player already owning one NPC at the
default per-player count 1 is a no-op. -/
theorem C8_witness :
    on_player_join cfg0 sW 1 ("Alice") 0 = (sW, []) :=
  C8_per_player_cap cfg0 sW 1 ("Alice") 0 (by decide)

/-- C9 fails as stated: CHAT_QUEUE is a queue.Queue() constructed with no
maxsize, so no fixed capacity bounds the pending jobs over all reachable
states; for any candidate capacity, one join and enough chat enqueues on
the live NPC reach a state whose queue exceeds it. -/
theorem C9_counterexample :
    ¬ ∃ cap : Nat, ∀ n s, ReachableN cfg0 respond0 n s → s.chatQueue.length ≤ cap := by
  rintro ⟨cap, hcap⟩
  have h := hcap (cap + 2) (pumpState cfg0 (cap + 1)) (pump_reach (cap + 1))
  rw [pump_len] at h
  omega

/-- C9 (amended): the queue is unbounded as a data structure; what bounds
the pending jobs is only the operation count: a state reachable in n
operations holds at most n pending jobs, since an enqueue adds at most one
job and no other operation adds any. -/
theorem C9_queue_bound (cfg : Config) (g : Responder) (n : Nat) (s : ModState)
    (h : ReachableN cfg g n s) : s.chatQueue.length ≤ n := by
  induction h with
  | start => simp [initState]
  | join n s pid uname pick _ ih =>
    rw [on_player_join_queue]
    omega
  | leave n s pid _ ih =>
    rw [despawn_queue]
    omega
  | chat n s npcid pid msg _ ih =>
    by_cases hc : dictGet s.active npcid = none
    · rw [handle_chat_dead _ _ _ _ hc]
      dsimp only
      omega
    · have hs : (dictGet s.active npcid).isSome = true := by
        cases hd : dictGet s.active npcid
        · exact absurd hd hc
        · rfl
      rw [handle_chat_queue_live _ _ _ _ hs]
      simp only [List.length_append, List.length_singleton]
      omega
  | work n s _ ih =>
    have hw := worker_step_queue cfg g s
    omega
  | stop n s _ ih =>
    rw [shutdown_queue]
    omega

/-- Witness for C9: the state after one join and one enqueue holds at most
two pending jobs. -/
theorem C9_witness :
    (handle_chat (on_player_join cfg0 initState 1 ("Alice") 0).1 1 1 ("hi")).1.chatQueue.length ≤ 2 :=
  C9_queue_bound cfg0 respond0 2 _
    (ReachableN.chat 1 _ 1 1 ("hi") (ReachableN.join 0 initState 1 ("Alice") 0 ReachableN.start))

/-- C1: for any sequence of handle_chat calls all targeting live NPCs from
an empty queue, the jobs enter the queue in call order; the single
consumer draining that queue emits exactly one spoken reply per job,
addressed to that job, in exactly the enqueue order; and for a
deterministic provider the replies are exactly the provider replies to the
enqueued messages in order. -/
theorem C1_fifo_order (cfg : Config) (s : ModState) (reqs : List (Nat × Nat × String))
    (provider : String) (f : String → String)
    (hprov : create_ai_provider cfg.active_provider = some provider)
    (hlive : ∀ r ∈ reqs, (dictGet s.active r.1).isSome = true)
    (hq : s.chatQueue = []) :
    (enqueueAll s reqs).chatQueue =
      reqs.map (fun r => { npc_id := r.1, player_id := r.2.1, message := r.2.2 }) ∧
    (∀ g : Responder, List.Forall₂ (fun (job : ChatJob) (out : EngineCall) =>
        ∃ t, out = EngineCall.say job.npc_id t)
      (enqueueAll s reqs).chatQueue
      (workerRunJobs cfg g (enqueueAll s reqs).active (enqueueAll s reqs).chatQueue).2) ∧
    ((∀ m, ¬ f m = "") →
      (workerRunJobs cfg (fun _ _ m => some (f m)) (enqueueAll s reqs).active
        (enqueueAll s reqs).chatQueue).2 =
      reqs.map (fun r => EngineCall.say r.1 (f r.2.2))) := by
  have hqueue : (enqueueAll s reqs).chatQueue =
      reqs.map (fun r => ({ npc_id := r.1, player_id := r.2.1, message := r.2.2 } : ChatJob)) := by
    rw [enqueueAll_queue s reqs hlive, hq]
    simp
  have hactive : (enqueueAll s reqs).active = s.active := enqueueAll_active s reqs
  have hjobs : ∀ j ∈ (enqueueAll s reqs).chatQueue,
      (dictGet (enqueueAll s reqs).active j.npc_id).isSome = true := by
    intro j hj
    rw [hqueue] at hj
    rw [hactive]
    obtain ⟨r, hr, hrj⟩ := List.mem_map.mp hj
    rw [← hrj]
    exact hlive r hr
  refine ⟨hqueue, ?_, ?_⟩
  · intro g
    exact workerRunJobs_forall2 cfg g _ _ provider hprov hjobs
  · intro hne
    rw [workerRunJobs_det cfg _ _ provider f hprov hjobs hne, hqueue]
    simp

/-- Witness for C1: two messages to the live NPC of a concrete state are
answered with one reply each, in order. -/
theorem C1_witness :
    (workerRunJobs cfg0 (fun _ _ _ => some ("ok"))
      (enqueueAll sW [(1, 1, "a"), (1, 1, "b")]).active
      (enqueueAll sW [(1, 1, "a"), (1, 1, "b")]).chatQueue).2 =
      [(1, 1, "a"), (1, 1, "b")].map (fun r => EngineCall.say r.1 ("ok")) :=
  (C1_fifo_order cfg0 sW [(1, 1, "a"), (1, 1, "b")] ("ollama") (fun _ => "ok")
    (by decide) (by decide) rfl).2.2 (fun _ => by decide)

end PoorCraft
